import Mathlib

/-!
Verification of `lib/iris/fileformats/grib/_message.py`.

The module wraps a single GRIB message behind two classes:

* `_RawGribMessage` partitions the message's coded keys into numbered
  sections (`_get_message_sections`, memoized by the `sections` property)
  and decodes individual key values (`_get_key_value`);
* `_GribMessage.data` validates section 3 (grid definition) and reshapes
  section 7's `codedValues` into an (Nj, Ni) array.

The gribapi decoding library is abstracted as a structure of decode
primitives (`GribApi` below); everything the Python module itself does is
translated directly.
-/

set_option linter.unusedVariables false

/-- Decoded GRIB key values.  Scalars are integers, floats (modelled as
rationals: the module performs no floating-point arithmetic, only equality
checks against small integers and reshaping) or strings; array values are
sequences of floats. -/
inductive GValue : Type where
  | int : Int → GValue
  | flt : ℚ → GValue
  | str : String → GValue
  | arr : List ℚ → GValue
deriving DecidableEq, Repr

/-- Ordered key/value mapping of one section (`collections.OrderedDict` of
string keys in the Python source). -/
abbrev KVList := List (String × GValue)

/-- Ordered mapping from section number to that section's keys (the outer
`OrderedDict` built by `_get_message_sections`). -/
abbrev SectionsMap := List (Nat × KVList)

/-- Insertion into an ordered dictionary: an existing key keeps its position
and gets the new value, a fresh key is appended at the end.  This is the
semantics of `d[k] = v` on `collections.OrderedDict`. -/
def odInsert {α β : Type} [DecidableEq α] : List (α × β) → α → β → List (α × β)
  | [], k, v => [(k, v)]
  | (a, b) :: t, k, v => if a = k then (k, v) :: t else (a, b) :: odInsert t k v

/-- Lookup in an ordered dictionary (`d[k]`, as `Option`). -/
def odLookup {α β : Type} [DecidableEq α] : List (α × β) → α → Option β
  | [], _ => none
  | (a, b) :: t, k => if a = k then some b else odLookup t k

/-- Abstraction of the gribapi library for one message id: the key names the
keys iterator yields in physical order (computed keys already skipped, as
`grib_skip_computed` arranges in `_get_message_keys`), and the three decode
primitives `_get_key_value` uses.  A decode failure is a
`gribapi.GribInternalError` and is represented by its message string. -/
structure GribApi where
  keys : List String
  get : String → Except String GValue
  getInt : String → Except String GValue
  getArray : String → Except String GValue

/-- Outcome of `_get_key_value`: either the Python `KeyError` raised for a
key without a value (`noValue`, recovered by the caller), or a propagated
`gribapi.GribInternalError` (`internal`, fatal). -/
inductive GetKeyError : Type where
  | noValue : String → GetKeyError
  | internal : String → GetKeyError
deriving DecidableEq, Repr

/-- Keys decoded with `gribapi.grib_get_array` in `_get_key_value`. -/
def arrayKeys : List String := ["codedValues", "values", "pv"]

/-- Keys decoded with `gribapi.grib_get(..., type=int)` in `_get_key_value`. -/
def intTypeKeys : List String := ["typeOfFirstFixedSurface", "typeOfSecondFixedSurface"]

/-- Translation of `_RawGribMessage._get_key_value`: array keys use the array
decode, the two fixed-surface keys force integer representation, everything
else uses the default scalar decode.  A `GribInternalError` from the chosen
primitive is inspected: "Passed array is too small" triggers one retry as an
array decode (whose own failure propagates), "Key/value not found" becomes
the `KeyError` (`noValue`), anything else is re-raised. -/
def getKeyValue (api : GribApi) (key : String) : Except GetKeyError GValue :=
  let firstTry : Except String GValue :=
    if key ∈ arrayKeys then api.getArray key
    else if key ∈ intTypeKeys then api.getInt key
    else api.get key
  match firstTry with
  | .ok v => .ok v
  | .error e =>
    if e = "Passed array is too small" then
      match api.getArray key with
      | .ok v => .ok v
      | .error e2 => .error (.internal e2)
    else if e = "Key/value not found" then
      .error (.noValue key)
    else
      .error (.internal e)

/-- Translation of the regex `re.match(r'section([0-9]{1})Length', key)`:
`re.match` anchors at the start only, so any key beginning with
`section<digit>Length` matches, and the digit is returned. -/
def sectionMatch (key : String) : Option Nat :=
  match key.data with
  | 's' :: 'e' :: 'c' :: 't' :: 'i' :: 'o' :: 'n' :: d :: 'L' :: 'e' :: 'n' :: 'g' :: 't' :: 'h' :: _ =>
    if d.isDigit then some (d.toNat - '0'.toNat) else none
  | _ => none

/-- Section-number detection of one loop iteration of
`_get_message_sections`: a `section<N>Length` key selects section `N`, the
sentinel key `7777` selects section 8 (which has no length key), any other
key leaves `new_section` as it was. -/
def detectSection (keyName : String) (newSec : Nat) : Nat :=
  match sectionMatch keyName with
  | some n => n
  | none => if keyName = "7777" then 8 else newSec

/-- Loop state of `_get_message_sections`: the variables
`(section, new_section, sections, section_keys)`. -/
abbrev SState := Nat × Nat × SectionsMap × KVList

/-- One iteration of the `for key_name in self._get_message_keys()` loop of
`_get_message_sections`: detect the section, flush the pending keys when the
section changes, then either force `numberOfSection` to the current section
number or decode the key's value — a `KeyError` (`noValue`) skips the key
via `continue` (which also skips the `section = new_section` update), any
other decode failure propagates. -/
def stepKey (api : GribApi) (st : SState) (keyName : String) : Except String SState :=
  match st with
  | (cur, newSec, secs, pend) =>
    let d := detectSection keyName newSec
    let secs' := if cur = d then secs else odInsert secs cur pend
    let pend' := if cur = d then pend else []
    if keyName = "numberOfSection" then
      .ok (d, d, secs', odInsert pend' keyName (GValue.int cur))
    else
      match getKeyValue api keyName with
      | .ok v => .ok (d, d, secs', odInsert pend' keyName v)
      | .error (.noValue _) => .ok (cur, d, secs', pend')
      | .error (.internal e) => .error e

/-- The whole key loop: `stepKey` over each key name in order, stopping at
the first fatal decode failure (the Python exception propagating out of the
loop). -/
def runKeys (api : GribApi) : List String → SState → Except String SState
  | [], st => .ok st
  | k :: ks, st =>
    match stepKey api st k with
    | .ok st' => runKeys api ks st'
    | .error e => .error e

/-- Translation of `_RawGribMessage._get_message_sections`: run the key loop
from `(section, new_section) = (0, 0)` with empty dictionaries, then write
the last section's pending keys into the result. -/
def getMessageSections (api : GribApi) : Except String SectionsMap :=
  match runKeys api api.keys (0, 0, [], []) with
  | .ok (cur, _, secs, pend) => .ok (odInsert secs cur pend)
  | .error e => .error e

/-- Translation of `_RawGribMessage`: the message handle (with its decode
primitives) plus the `_sections` cache, `None` after `__init__`. -/
structure RawGribMessage where
  api : GribApi
  sectionsCache : Option SectionsMap := none

/-- Translation of the `sections` property: return the cache when populated,
otherwise compute `_get_message_sections` and store it — on failure the
exception propagates and the cache is left untouched.  The call returns the
result together with the post-call object state. -/
def sectionsCall (m : RawGribMessage) : Except String SectionsMap × RawGribMessage :=
  match m.sectionsCache with
  | some s => (.ok s, m)
  | none =>
    match getMessageSections m.api with
    | .ok s => (.ok s, { m with sectionsCache := some s })
    | .error e => (.error e, m)

/-- Errors `_GribMessage.data` can produce: the `TranslationError`s it raises
itself (the spec's `UnsupportedGridError`), a `KeyError` from indexing a
section dictionary or the outer sections dictionary, and numpy's errors from
`reshape` (wrong element count, or a non-array/non-integer operand). -/
inductive PyError : Type where
  | translationError : String → PyError
  | keyError : String → PyError
  | sectionKeyError : Nat → PyError
  | valueError : String → PyError
  | typeError : PyError
deriving DecidableEq, Repr

/-- Python `d[k]` on a section's ordered dictionary (`KeyError` on a missing
key). -/
def kvGetE (kvs : KVList) (k : String) : Except PyError GValue :=
  match odLookup kvs k with
  | some v => .ok v
  | none => .error (.keyError k)

/-- Python `sections[n]` on the outer dictionary (`KeyError` on a missing
section number). -/
def secGetE (secs : SectionsMap) (n : Nat) : Except PyError KVList :=
  match odLookup secs n with
  | some s => .ok s
  | none => .error (.sectionKeyError n)

/-- Python `value == n` for a decoded value against an integer literal.
Integer and float scalars compare numerically; a string or an array is never
equal to an integer here (numpy's elementwise array comparison is abstracted:
the module only ever compares scalar grid-definition keys). -/
def gvEqInt : GValue → Int → Bool
  | .int m, n => m = n
  | .flt q, n => q = (n : ℚ)
  | _, _ => false

/-- Python `value != n`, the negation of `==`. -/
def gvNeInt (v : GValue) (n : Int) : Bool := !(gvEqInt v n)

/-- Python `str(value)` as used by `'...{}'.format(value)` in the error
messages (exact float/array rendering is abstracted; the messages the claims
concern format integer scalars). -/
def gvFormat : GValue → String
  | .int m => toString m
  | .flt q => toString q
  | .str s => s
  | .arr xs => toString xs

/-- Row-major reshape of a flat list into `nj` rows of `ni` elements. -/
def chunkRows (nj ni : Nat) (xs : List ℚ) : List (List ℚ) :=
  (List.range nj).map (fun j => (xs.drop (j * ni)).take ni)

/-- numpy's `codedValues.reshape(Nj, Ni)`: the operand must be an array and
the dimensions integers (else a type error), the element count must be
exactly `Nj * Ni` (else `ValueError`), and the rows are filled row-major.
numpy's `-1` dimension inference is not modelled: negative dimensions are a
`ValueError` here, and every claim uses nonnegative dimensions. -/
def reshapeVals (coded nj ni : GValue) : Except PyError (List (List ℚ)) :=
  match coded, nj, ni with
  | .arr xs, .int a, .int b =>
    if 0 ≤ a ∧ 0 ≤ b then
      if xs.length = a.toNat * b.toNat then .ok (chunkRows a.toNat b.toNat xs)
      else .error (.valueError "cannot reshape array")
    else .error (.valueError "negative dimensions are not allowed")
  | _, _, _ => .error .typeError

/-- Translation of `_GribMessage.data`, as a function of the sections
mapping the wrapped raw message provides.  The three grid checks run in
source order with Python's `or` short-circuit on the quasi-regular check,
and the successful branch reads `sections[7]['codedValues']`, then
`grid_section['Nj']`, then `grid_section['Ni']`, then reshapes. -/
def dataOf (secs : SectionsMap) : Except PyError (List (List ℚ)) :=
  match secGetE secs 3 with
  | .error e => .error e
  | .ok gridSection =>
    match kvGetE gridSection "sourceOfGridDefinition" with
    | .error e => .error e
    | .ok src =>
      if gvNeInt src 0 then
        .error (.translationError ("Unsupported source of grid definition: " ++ gvFormat src))
      else
        match kvGetE gridSection "numberOfOctectsForNumberOfPoints" with
        | .error e => .error e
        | .ok octs =>
          if gvNeInt octs 0 then
            .error (.translationError "Grid Definition Section 3 contains unsupported quasi-regular grid.")
          else
            match kvGetE gridSection "interpretationOfNumberOfPoints" with
            | .error e => .error e
            | .ok interp =>
              if gvNeInt interp 0 then
                .error (.translationError "Grid Definition Section 3 contains unsupported quasi-regular grid.")
              else
                match kvGetE gridSection "gridDefinitionTemplateNumber" with
                | .error e => .error e
                | .ok template =>
                  if gvEqInt template 0 then
                    match secGetE secs 7 with
                    | .error e => .error e
                    | .ok dataSection =>
                      match kvGetE dataSection "codedValues" with
                      | .error e => .error e
                      | .ok coded =>
                        match kvGetE gridSection "Nj" with
                        | .error e => .error e
                        | .ok nj =>
                          match kvGetE gridSection "Ni" with
                          | .error e => .error e
                          | .ok ni => reshapeVals coded nj ni
                  else
                    .error (.translationError ("Grid definition template " ++ gvFormat template ++ " is not supported"))

/-- A key that affects no section boundary: it neither matches the
`section<digit>Length` pattern nor is the section-8 sentinel `7777`. -/
def plainKey (k : String) : Prop := sectionMatch k = none ∧ k ≠ "7777"

instance plainKeyDecidable (k : String) : Decidable (plainKey k) :=
  inferInstanceAs (Decidable (sectionMatch k = none ∧ k ≠ "7777"))

/-- Whether a decode outcome is the recovered no-value `KeyError`. -/
def isNoValue : Except GetKeyError GValue → Bool
  | .error (.noValue _) => true
  | _ => false

/-- Whether a key name moves the loop to a new section: a
`section<digit>Length` key or the sentinel `7777`. -/
def isBoundaryKey (k : String) : Bool := (sectionMatch k).isSome || k = "7777"

/-- The length key announcing section `i`. -/
def boundaryKeyName (i : Nat) : String := "section" ++ toString i ++ "Length"

/-- Key names contributed by one encoded section: its length key followed by
its remaining keys. -/
def blockKeys (b : Nat × List String) : List String := boundaryKeyName b.1 :: b.2

/-- Key sequence of a message that encodes section 0 (keys `g0`, which
precede any length key), the sections described by `blocks` (each a section
number with its keys), and the terminator section 8 (`7777` followed by
`g8`). -/
def msgKeys (g0 : List String) (blocks : List (Nat × List String)) (g8 : List String) : List String :=
  g0 ++ (blocks.map blockKeys).flatten ++ "7777" :: g8

/-- The keys for which `_get_message_sections` consults `_get_key_value`:
every iterated key except `numberOfSection`, whose value is forced to the
current section number without a decode. -/
def decodeAttempts (api : GribApi) : List String :=
  api.keys.filter (fun k => k ≠ "numberOfSection")

/-- Sections mapping of the spec's worked `data()` example: a regular
in-message lat/lon grid (template 0) with Nj = 2, Ni = 3 and coded values
1..6. -/
def exampleSections : SectionsMap :=
  [(3, [("sourceOfGridDefinition", .int 0), ("numberOfOctectsForNumberOfPoints", .int 0),
        ("interpretationOfNumberOfPoints", .int 0), ("gridDefinitionTemplateNumber", .int 0),
        ("Nj", .int 2), ("Ni", .int 3)]),
   (7, [("codedValues", .arr [1, 2, 3, 4, 5, 6])])]

/-- Sections mapping whose grid definition uses unsupported template 5. -/
def templateFiveSections : SectionsMap :=
  [(3, [("sourceOfGridDefinition", .int 0), ("numberOfOctectsForNumberOfPoints", .int 0),
        ("interpretationOfNumberOfPoints", .int 0), ("gridDefinitionTemplateNumber", .int 5),
        ("Nj", .int 2), ("Ni", .int 3)]),
   (7, [("codedValues", .arr [1, 2, 3, 4, 5, 6])])]

/-- Decoder exercising every branch of `_get_key_value`: an array key, a
typed-surface key, a plain scalar, a scalar whose default decode reports a
too-small buffer, a key with no value, and a corrupt key. -/
def branchApi : GribApi where
  keys := []
  get := fun k =>
    if k = "scalarKey" then .ok (.int 7)
    else if k = "arrayishKey" then .error "Passed array is too small"
    else if k = "emptyKey" then .error "Key/value not found"
    else if k = "corruptKey" then .error "gribapi went wrong"
    else .ok (.int 0)
  getInt := fun _ => .ok (.int 100)
  getArray := fun k => if k = "codedValues" then .ok (.arr [1, 2]) else .ok (.arr [3])

/-- Four-key message: two section-0 keys around nothing, one section-1 key,
and the terminator.  Every decode succeeds with the integer 1. -/
def fourKeyApi : GribApi where
  keys := ["a", "section1Length", "b", "7777"]
  get := fun _ => .ok (.int 1)
  getInt := fun _ => .ok (.int 2)
  getArray := fun _ => .ok (.arr [1, 2])

/-- Message whose section-3 length key is advertised with no value, followed
by a `numberOfSection` key: the `continue` on the no-value `KeyError` skips
the `section = new_section` update, so `numberOfSection` is recorded with
the stale section number 0 inside section 3's mapping. -/
def staleSectionApi : GribApi where
  keys := ["section3Length", "numberOfSection"]
  get := fun k => if k = "section3Length" then .error "Key/value not found" else .ok (.int 3)
  getInt := fun _ => .ok (.int 0)
  getArray := fun _ => .ok (.arr [])

/-- Message whose boundary key carries a value, with `numberOfSection`
appearing in sections 0 and 4; the decoder would report 9 for it, but the
loop overrides it with the containing section number. -/
def nosApi : GribApi where
  keys := ["numberOfSection", "section4Length", "numberOfSection"]
  get := fun _ => .ok (.int 9)
  getInt := fun _ => .ok (.int 0)
  getArray := fun _ => .ok (.arr [])

/-- Message with two adjacent section-boundary keys, both decoding fine:
the flush at `section2Length` stores section 1 holding the value of its own
length key, not an empty mapping. -/
def adjacentBoundaryApi : GribApi where
  keys := ["section1Length", "section2Length"]
  get := fun _ => .ok (.int 1)
  getInt := fun _ => .ok (.int 0)
  getArray := fun _ => .ok (.arr [])

/-- Message whose very first key already announces section 2: the flush
stores section 0 as an empty mapping. -/
def leadingBoundaryApi : GribApi where
  keys := ["section2Length", "x"]
  get := fun _ => .ok (.int 6)
  getInt := fun _ => .ok (.int 0)
  getArray := fun _ => .ok (.arr [])

/-- Message with a valueless key `nv` between two ordinary keys. -/
def noValueKeyApi : GribApi where
  keys := ["a", "nv", "b"]
  get := fun k => if k = "nv" then .error "Key/value not found" else .ok (.int 1)
  getInt := fun _ => .ok (.int 0)
  getArray := fun _ => .ok (.arr [])

/-- A freshly constructed reader over a message with no keys. -/
def freshReader : RawGribMessage where
  api := { keys := [], get := fun _ => .ok (.int 0), getInt := fun _ => .ok (.int 0),
           getArray := fun _ => .ok (.arr []) }
  sectionsCache := none

/-- The same reader after its first successful `sections` call. -/
def cachedReader : RawGribMessage :=
  { freshReader with sectionsCache := some [(0, [])] }

theorem mem_odInsert {α β : Type} [DecidableEq α] {m : List (α × β)} {k : α} {v : β}
    {p : α × β} (h : p ∈ odInsert m k v) : p = (k, v) ∨ p ∈ m := by
  induction m with
  | nil => simpa [odInsert] using h
  | cons hd t ih =>
    obtain ⟨a, b⟩ := hd
    by_cases hak : a = k
    · simp [odInsert, hak] at h
      rcases h with h | h
      · exact Or.inl (by simp [h])
      · exact Or.inr (by simp [h])
    · simp [odInsert, hak] at h
      rcases h with h | h
      · exact Or.inr (by simp [h])
      · rcases ih h with h' | h'
        · exact Or.inl h'
        · exact Or.inr (by simp [h'])

theorem odInsert_map_fst_of_not_mem {α β : Type} [DecidableEq α] {m : List (α × β)} {k : α}
    (v : β) (h : k ∉ m.map Prod.fst) :
    (odInsert m k v).map Prod.fst = m.map Prod.fst ++ [k] := by
  induction m with
  | nil => rfl
  | cons hd t ih =>
    obtain ⟨a, b⟩ := hd
    have hka : ¬a = k := fun hak => h (by simp [hak])
    have ht : k ∉ t.map Prod.fst := fun hmem => h (by simp [hmem])
    simp [odInsert, hka, ih ht]

theorem odLookup_odInsert_self {α β : Type} [DecidableEq α] (m : List (α × β)) (k : α) (v : β) :
    odLookup (odInsert m k v) k = some v := by
  induction m with
  | nil => simp [odInsert, odLookup]
  | cons hd t ih =>
    obtain ⟨a, b⟩ := hd
    by_cases hak : a = k
    · simp [odInsert, hak, odLookup]
    · simp [odInsert, hak, odLookup, ih]

theorem odLookup_odInsert_of_ne {α β : Type} [DecidableEq α] (m : List (α × β)) {k j : α}
    (v : β) (h : j ≠ k) : odLookup (odInsert m k v) j = odLookup m j := by
  have hkj : ¬k = j := fun hc => h hc.symm
  induction m with
  | nil => simp [odInsert, odLookup, hkj]
  | cons hd t ih =>
    obtain ⟨a, b⟩ := hd
    by_cases hak : a = k
    · subst hak
      simp [odInsert, odLookup, hkj]
    · by_cases haj : a = j
      · subst haj
        simp [odInsert, h, odLookup]
      · simp [odInsert, hak, odLookup, haj, ih]

theorem runKeys_append (api : GribApi) (xs ys : List String) (st : SState) :
    runKeys api (xs ++ ys) st =
      match runKeys api xs st with
      | .ok st' => runKeys api ys st'
      | .error e => .error e := by
  induction xs generalizing st with
  | nil => simp [runKeys]
  | cons k t ih =>
    rw [List.cons_append, runKeys, runKeys]
    cases stepKey api st k with
    | ok st' => exact ih st'
    | error e => rfl

theorem detectSection_plain {k : String} (h : plainKey k) (ns : Nat) : detectSection k ns = ns := by
  simp [detectSection, h.1, h.2]

theorem detectSection_some {k : String} {m : Nat} (h : sectionMatch k = some m) (ns : Nat) :
    detectSection k ns = m := by
  simp [detectSection, h]

theorem sectionMatch_numberOfSection : sectionMatch "numberOfSection" = none := rfl

theorem sectionMatch_7777 : sectionMatch "7777" = none := rfl

theorem sectionMatch_boundaryKeyName : ∀ i < 10, sectionMatch (boundaryKeyName i) = some i := by
  decide

theorem reshapeVals_no_translation (c a b : GValue) (msg : String) :
    reshapeVals c a b ≠ Except.error (PyError.translationError msg) := by
  unfold reshapeVals
  rcases c <;> rcases a <;> rcases b <;> simp <;> split_ifs <;> simp

/-- C1: when section 3 declares an in-message (source 0), non-quasi-regular,
template-0 grid, `data()` returns section 7's `codedValues` reshaped
row-major into the (Nj, Ni) shape read from section 3. -/
theorem data_regular_grid_reshape (secs : SectionsMap) (gridSec dataSec : KVList)
    (nj ni : Nat) (xs : List ℚ)
    (h3 : odLookup secs 3 = some gridSec)
    (hsrc : odLookup gridSec "sourceOfGridDefinition" = some (GValue.int 0))
    (hoct : odLookup gridSec "numberOfOctectsForNumberOfPoints" = some (GValue.int 0))
    (hint : odLookup gridSec "interpretationOfNumberOfPoints" = some (GValue.int 0))
    (htpl : odLookup gridSec "gridDefinitionTemplateNumber" = some (GValue.int 0))
    (hNj : odLookup gridSec "Nj" = some (GValue.int nj))
    (hNi : odLookup gridSec "Ni" = some (GValue.int ni))
    (h7 : odLookup secs 7 = some dataSec)
    (hcv : odLookup dataSec "codedValues" = some (GValue.arr xs))
    (hlen : xs.length = nj * ni) :
    dataOf secs = .ok (chunkRows nj ni xs) := by
  simp [dataOf, secGetE, kvGetE, h3, hsrc, hoct, hint, htpl, hNj, hNi, h7, hcv,
    gvNeInt, gvEqInt, reshapeVals, hlen]

/-- C1 witness: the spec's worked example, Nj = 2, Ni = 3 and coded values
1..6 give the 2 by 3 row-major grid. -/
theorem data_regular_grid_reshape_witness :
    dataOf exampleSections = .ok [[1, 2, 3], [4, 5, 6]] := by
  rw [data_regular_grid_reshape exampleSections
    [("sourceOfGridDefinition", .int 0), ("numberOfOctectsForNumberOfPoints", .int 0),
     ("interpretationOfNumberOfPoints", .int 0), ("gridDefinitionTemplateNumber", .int 0),
     ("Nj", .int 2), ("Ni", .int 3)]
    [("codedValues", .arr [1, 2, 3, 4, 5, 6])]
    2 3 [1, 2, 3, 4, 5, 6] rfl rfl rfl rfl rfl rfl rfl rfl rfl rfl]
  rfl

/-- C2: `data()` raises the unsupported-grid `TranslationError` exactly for
the three section-3 conditions, checked in source order — non-zero
`sourceOfGridDefinition` (message names the source code), non-zero
`numberOfOctectsForNumberOfPoints` or `interpretationOfNumberOfPoints`
(quasi-regular grid), non-zero `gridDefinitionTemplateNumber` (message
names the template number) — and for nothing else. -/
theorem data_unsupported_grid_errors (secs : SectionsMap) (gridSec : KVList)
    (h3 : odLookup secs 3 = some gridSec) :
    (∀ s : Int, odLookup gridSec "sourceOfGridDefinition" = some (GValue.int s) → s ≠ 0 →
      dataOf secs = .error (.translationError
        ("Unsupported source of grid definition: " ++ toString s)))
  ∧ (∀ a : Int, odLookup gridSec "sourceOfGridDefinition" = some (GValue.int 0) →
      odLookup gridSec "numberOfOctectsForNumberOfPoints" = some (GValue.int a) → a ≠ 0 →
      dataOf secs = .error (.translationError
        "Grid Definition Section 3 contains unsupported quasi-regular grid."))
  ∧ (∀ b : Int, odLookup gridSec "sourceOfGridDefinition" = some (GValue.int 0) →
      odLookup gridSec "numberOfOctectsForNumberOfPoints" = some (GValue.int 0) →
      odLookup gridSec "interpretationOfNumberOfPoints" = some (GValue.int b) → b ≠ 0 →
      dataOf secs = .error (.translationError
        "Grid Definition Section 3 contains unsupported quasi-regular grid."))
  ∧ (∀ t : Int, odLookup gridSec "sourceOfGridDefinition" = some (GValue.int 0) →
      odLookup gridSec "numberOfOctectsForNumberOfPoints" = some (GValue.int 0) →
      odLookup gridSec "interpretationOfNumberOfPoints" = some (GValue.int 0) →
      odLookup gridSec "gridDefinitionTemplateNumber" = some (GValue.int t) → t ≠ 0 →
      dataOf secs = .error (.translationError
        ("Grid definition template " ++ toString t ++ " is not supported")))
  ∧ (odLookup gridSec "sourceOfGridDefinition" = some (GValue.int 0) →
      odLookup gridSec "numberOfOctectsForNumberOfPoints" = some (GValue.int 0) →
      odLookup gridSec "interpretationOfNumberOfPoints" = some (GValue.int 0) →
      odLookup gridSec "gridDefinitionTemplateNumber" = some (GValue.int 0) →
      ∀ msg, dataOf secs ≠ .error (.translationError msg)) := by
  refine ⟨?_, ?_, ?_, ?_, ?_⟩
  · intro s hsrc hs
    simp [dataOf, secGetE, kvGetE, h3, hsrc, gvNeInt, gvEqInt, hs, gvFormat]
  · intro a hsrc hoct ha
    simp [dataOf, secGetE, kvGetE, h3, hsrc, hoct, gvNeInt, gvEqInt, ha]
  · intro b hsrc hoct hint hb
    simp [dataOf, secGetE, kvGetE, h3, hsrc, hoct, hint, gvNeInt, gvEqInt, hb]
  · intro t hsrc hoct hint htpl ht
    simp [dataOf, secGetE, kvGetE, h3, hsrc, hoct, hint, htpl, gvNeInt, gvEqInt, ht, gvFormat]
  · intro hsrc hoct hint htpl msg hcontra
    cases h7 : odLookup secs 7 with
    | none =>
      simp [dataOf, secGetE, kvGetE, h3, hsrc, hoct, hint, htpl, gvNeInt, gvEqInt, h7] at hcontra
    | some dataSec =>
      cases hcv : odLookup dataSec "codedValues" with
      | none =>
        simp [dataOf, secGetE, kvGetE, h3, hsrc, hoct, hint, htpl, gvNeInt, gvEqInt,
          h7, hcv] at hcontra
      | some coded =>
        cases hNj : odLookup gridSec "Nj" with
        | none =>
          simp [dataOf, secGetE, kvGetE, h3, hsrc, hoct, hint, htpl, gvNeInt, gvEqInt,
            h7, hcv, hNj] at hcontra
        | some nj =>
          cases hNi : odLookup gridSec "Ni" with
          | none =>
            simp [dataOf, secGetE, kvGetE, h3, hsrc, hoct, hint, htpl, gvNeInt, gvEqInt,
              h7, hcv, hNj, hNi] at hcontra
          | some ni =>
            have : dataOf secs = reshapeVals coded nj ni := by
              simp [dataOf, secGetE, kvGetE, h3, hsrc, hoct, hint, htpl, gvNeInt, gvEqInt,
                h7, hcv, hNj, hNi]
            exact reshapeVals_no_translation coded nj ni msg (this ▸ hcontra)

/-- C2 witness: template number 5 produces the unsupported-template error
naming template 5. -/
theorem data_unsupported_grid_errors_witness :
    dataOf templateFiveSections =
      .error (.translationError "Grid definition template 5 is not supported") := by
  have h := (data_unsupported_grid_errors templateFiveSections
    [("sourceOfGridDefinition", .int 0), ("numberOfOctectsForNumberOfPoints", .int 0),
     ("interpretationOfNumberOfPoints", .int 0), ("gridDefinitionTemplateNumber", .int 5),
     ("Nj", .int 2), ("Ni", .int 3)] rfl).2.2.2.1 5 rfl rfl rfl rfl (by decide)
  simpa using h

/-- C5: `_get_key_value` decode priority — the fixed array-key set uses the
array decode, then the fixed typed-surface set forces integer decode, then
the default scalar decode; a "Passed array is too small" failure of the
default decode is retried exactly once as an array decode (whose own
failure propagates), "Key/value not found" becomes the recovered no-value
`KeyError`, and every other decoder failure propagates unchanged as fatal. -/
theorem get_key_value_priority (api : GribApi) :
    (∀ key v, key ∈ arrayKeys → api.getArray key = .ok v →
      getKeyValue api key = .ok v)
  ∧ (∀ key v, key ∉ arrayKeys → key ∈ intTypeKeys → api.getInt key = .ok v →
      getKeyValue api key = .ok v)
  ∧ (∀ key v, key ∉ arrayKeys → key ∉ intTypeKeys → api.get key = .ok v →
      getKeyValue api key = .ok v)
  ∧ (∀ key v, key ∉ arrayKeys → key ∉ intTypeKeys →
      api.get key = .error "Passed array is too small" → api.getArray key = .ok v →
      getKeyValue api key = .ok v)
  ∧ (∀ key e, key ∉ arrayKeys → key ∉ intTypeKeys →
      api.get key = .error "Passed array is too small" → api.getArray key = .error e →
      getKeyValue api key = .error (.internal e))
  ∧ (∀ key, key ∉ arrayKeys → key ∉ intTypeKeys →
      api.get key = .error "Key/value not found" →
      getKeyValue api key = .error (.noValue key))
  ∧ (∀ key e, key ∉ arrayKeys → key ∉ intTypeKeys → api.get key = .error e →
      e ≠ "Passed array is too small" → e ≠ "Key/value not found" →
      getKeyValue api key = .error (.internal e)) := by
  refine ⟨?_, ?_, ?_, ?_, ?_, ?_, ?_⟩
  · intro key v h1 h2
    simp [getKeyValue, h1, h2]
  · intro key v h1 h2 h3
    simp [getKeyValue, h1, h2, h3]
  · intro key v h1 h2 h3
    simp [getKeyValue, h1, h2, h3]
  · intro key v h1 h2 h3 h4
    simp [getKeyValue, h1, h2, h3, h4]
  · intro key e h1 h2 h3 h4
    simp [getKeyValue, h1, h2, h3, h4]
  · intro key h1 h2 h3
    simp [getKeyValue, h1, h2, h3]
  · intro key e h1 h2 h3 h4 h5
    simp [getKeyValue, h1, h2, h3, h4, h5]

/-- C5 witness: one concrete decoder exercising all seven behaviours of the
decode priority order. -/
theorem get_key_value_priority_witness :
    getKeyValue branchApi "codedValues" = .ok (.arr [1, 2])
  ∧ getKeyValue branchApi "typeOfFirstFixedSurface" = .ok (.int 100)
  ∧ getKeyValue branchApi "scalarKey" = .ok (.int 7)
  ∧ getKeyValue branchApi "arrayishKey" = .ok (.arr [3])
  ∧ getKeyValue branchApi "emptyKey" = .error (.noValue "emptyKey")
  ∧ getKeyValue branchApi "corruptKey" = .error (.internal "gribapi went wrong") :=
  ⟨(get_key_value_priority branchApi).1 "codedValues" (.arr [1, 2]) (by decide) rfl,
   (get_key_value_priority branchApi).2.1 "typeOfFirstFixedSurface" (.int 100)
     (by decide) (by decide) rfl,
   (get_key_value_priority branchApi).2.2.1 "scalarKey" (.int 7) (by decide) (by decide) rfl,
   (get_key_value_priority branchApi).2.2.2.1 "arrayishKey" (.arr [3])
     (by decide) (by decide) rfl rfl,
   (get_key_value_priority branchApi).2.2.2.2.2.1 "emptyKey" (by decide) (by decide) rfl,
   (get_key_value_priority branchApi).2.2.2.2.2.2 "corruptKey" "gribapi went wrong"
     (by decide) (by decide) rfl (by decide) (by decide)⟩

/-- C7: the sections mapping is memoized — after a first successful call
the cache holds the result and every later call returns it unchanged, and
on a parse failure the error propagates with the cache left unpopulated. -/
theorem sections_memoized (m : RawGribMessage) (h : m.sectionsCache = none) :
    (∀ s m', sectionsCall m = (Except.ok s, m') →
      m'.sectionsCache = some s ∧ sectionsCall m' = (Except.ok s, m'))
  ∧ (∀ e, (sectionsCall m).1 = Except.error e →
      (sectionsCall m).2 = m ∧ (sectionsCall m).2.sectionsCache = none) := by
  constructor
  · intro s m' heq
    cases hg : getMessageSections m.api with
    | ok s0 =>
      simp [sectionsCall, h, hg] at heq
      obtain ⟨hs, hm⟩ := heq
      subst hs
      constructor
      · rw [← hm]
      · rw [← hm]
        simp [sectionsCall]
    | error e0 =>
      simp [sectionsCall, h, hg] at heq
  · intro e herr
    cases hg : getMessageSections m.api with
    | ok s0 =>
      simp [sectionsCall, h, hg] at herr
    | error e0 =>
      refine ⟨?_, ?_⟩ <;> simp [sectionsCall, h, hg]

/-- C7 witness: a freshly constructed reader over an empty-key message
caches `{0: {}}` on the first call and returns the cached mapping on the
second call without recomputation. -/
theorem sections_memoized_witness :
    cachedReader.sectionsCache = some [(0, [])]
  ∧ sectionsCall cachedReader = (Except.ok [(0, [])], cachedReader) :=
  (sections_memoized freshReader rfl).1 [(0, [])] cachedReader rfl

theorem stepKey_plain_nOS {api : GribApi} {k : String} (hk : plainKey k)
    (hn : k = "numberOfSection") (cur : Nat) (secs : SectionsMap) (pend : KVList) :
    stepKey api (cur, cur, secs, pend) k = .ok (cur, cur, secs, odInsert pend k (GValue.int cur)) := by
  subst hn
  simp [stepKey, detectSection_plain hk]

theorem stepKey_plain_ok {api : GribApi} {k : String} {v : GValue} (hk : plainKey k)
    (hn : k ≠ "numberOfSection") (hgv : getKeyValue api k = .ok v)
    (cur : Nat) (secs : SectionsMap) (pend : KVList) :
    stepKey api (cur, cur, secs, pend) k = .ok (cur, cur, secs, odInsert pend k v) := by
  simp [stepKey, detectSection_plain hk, hn, hgv]

theorem stepKey_plain_noValue {api : GribApi} {k s : String} (hk : plainKey k)
    (hn : k ≠ "numberOfSection") (hgv : getKeyValue api k = .error (.noValue s))
    (cur : Nat) (secs : SectionsMap) (pend : KVList) :
    stepKey api (cur, cur, secs, pend) k = .ok (cur, cur, secs, pend) := by
  simp [stepKey, detectSection_plain hk, hn, hgv]

theorem stepKey_plain_internal {api : GribApi} {k e : String} (hk : plainKey k)
    (hn : k ≠ "numberOfSection") (hgv : getKeyValue api k = .error (.internal e))
    (cur : Nat) (secs : SectionsMap) (pend : KVList) :
    stepKey api (cur, cur, secs, pend) k = .error e := by
  simp [stepKey, detectSection_plain hk, hn, hgv]

theorem runKeys_plain {api : GribApi} {g : List String} (hg : ∀ k ∈ g, plainKey k) :
    ∀ cur secs pend st', runKeys api g (cur, cur, secs, pend) = .ok st' →
      ∃ pend', st' = (cur, cur, secs, pend') := by
  induction g with
  | nil =>
    intro cur secs pend st' h
    simp [runKeys] at h
    exact ⟨pend, h.symm⟩
  | cons k t ih =>
    intro cur secs pend st' h
    have hk : plainKey k := hg k (by simp)
    have ht : ∀ k ∈ t, plainKey k := fun k hmem => hg k (by simp [hmem])
    by_cases hn : k = "numberOfSection"
    · rw [runKeys, stepKey_plain_nOS hk hn] at h
      exact ih ht cur secs _ st' h
    · cases hgv : getKeyValue api k with
      | ok v =>
        rw [runKeys, stepKey_plain_ok hk hn hgv] at h
        exact ih ht cur secs _ st' h
      | error ge =>
        cases ge with
        | noValue s =>
          rw [runKeys, stepKey_plain_noValue hk hn hgv] at h
          exact ih ht cur secs _ st' h
        | internal e =>
          rw [runKeys, stepKey_plain_internal hk hn hgv] at h
          cases h

theorem stepKey_boundary {api : GribApi} {k : String} {m cur : Nat}
    (secs : SectionsMap) (pend : KVList)
    (hd : ∀ ns, detectSection k ns = m) (hne : cur ≠ m)
    (hnv : isNoValue (getKeyValue api k) = false) (hnos : k ≠ "numberOfSection") :
    (∃ v, getKeyValue api k = .ok v ∧
      stepKey api (cur, cur, secs, pend) k = .ok (m, m, odInsert secs cur pend, [(k, v)]))
  ∨ (∃ e, stepKey api (cur, cur, secs, pend) k = .error e) := by
  cases hgv : getKeyValue api k with
  | ok v =>
    refine Or.inl ⟨v, rfl, ?_⟩
    simp [stepKey, hd, hne, hnos, hgv, odInsert]
  | error ge =>
    cases ge with
    | noValue s =>
      rw [hgv] at hnv
      simp [isNoValue] at hnv
    | internal e =>
      refine Or.inr ⟨e, ?_⟩
      simp [stepKey, hd, hne, hnos, hgv]

theorem getMessageSections_ok_elim (api : GribApi) (secs : SectionsMap)
    (h : getMessageSections api = .ok secs) :
    ∃ cur ns secsR pend, runKeys api api.keys (0, 0, [], []) = .ok (cur, ns, secsR, pend)
      ∧ secs = odInsert secsR cur pend := by
  unfold getMessageSections at h
  cases hAll : runKeys api api.keys (0, 0, [], []) with
  | error e => simp [hAll] at h
  | ok stF =>
    obtain ⟨cur, ns, secsR, pend⟩ := stF
    rw [hAll] at h
    simp at h
    exact ⟨cur, ns, secsR, pend, rfl, h.symm⟩

theorem getMessageSections_error_elim (api : GribApi) (e : String)
    (h : getMessageSections api = .error e) :
    runKeys api api.keys (0, 0, [], []) = .error e := by
  unfold getMessageSections at h
  cases hAll : runKeys api api.keys (0, 0, [], []) with
  | error e2 =>
    rw [hAll] at h
    simp at h
    rw [h]
  | ok stF =>
    obtain ⟨cur, ns, secsR, pend⟩ := stF
    rw [hAll] at h
    simp at h

theorem not_mem_of_all_lt {l : List Nat} {c : Nat} (h : ∀ j ∈ l, j < c) : c ∉ l :=
  fun hmem => absurd (h c hmem) (lt_irrefl c)

theorem boundaryKeyName_ne_nOS {i : Nat} (hi : i < 10) :
    boundaryKeyName i ≠ "numberOfSection" := by
  intro hc
  have hm := sectionMatch_boundaryKeyName i hi
  rw [hc, sectionMatch_numberOfSection] at hm
  cases hm

theorem runKeys_blocks {api : GribApi} (g8 : List String) (hg8 : ∀ k ∈ g8, plainKey k)
    (h77 : isNoValue (getKeyValue api "7777") = false) :
    ∀ (blocks : List (Nat × List String)) (m cur : Nat) (secs : SectionsMap) (pend : KVList)
      (st' : SState),
      blocks.map Prod.fst = List.range' (cur + 1) m →
      cur + m < 8 →
      (∀ b ∈ blocks, ∀ k ∈ b.2, plainKey k) →
      (∀ b ∈ blocks, isNoValue (getKeyValue api (boundaryKeyName b.1)) = false) →
      (∀ j ∈ secs.map Prod.fst, j < cur) →
      runKeys api ((blocks.map blockKeys).flatten ++ "7777" :: g8) (cur, cur, secs, pend) = .ok st' →
      ∃ secsF pend8, st' = (8, 8, secsF, pend8)
        ∧ secsF.map Prod.fst = secs.map Prod.fst ++ List.range' cur (m + 1)
        ∧ (∀ j ∈ secsF.map Prod.fst, j < 8) := by
  intro blocks
  induction blocks with
  | nil =>
    intro m cur secs pend st' hmap hlt hbp hbv hfresh hrun
    have hm : m = 0 := by
      rcases m with _ | m'
      · rfl
      · rw [List.map_nil] at hmap
        simp [List.range'] at hmap
    subst hm
    simp only [List.map_nil, List.flatten_nil, List.nil_append] at hrun
    have hcur8 : cur ≠ 8 := by omega
    have hd : ∀ ns, detectSection "7777" ns = 8 := fun ns => rfl
    rcases stepKey_boundary secs pend hd hcur8 h77 (by decide) with ⟨v, hgv, hstep⟩ | ⟨e, hstep⟩
    · simp only [runKeys, hstep] at hrun
      obtain ⟨pend8, hst⟩ :=
        runKeys_plain hg8 8 (odInsert secs cur pend) [("7777", v)] st' hrun
      have hnm : cur ∉ secs.map Prod.fst := not_mem_of_all_lt hfresh
      refine ⟨odInsert secs cur pend, pend8, hst, ?_, ?_⟩
      · rw [odInsert_map_fst_of_not_mem pend hnm, List.range'_one]
      · intro j hj
        rw [odInsert_map_fst_of_not_mem pend hnm] at hj
        rcases List.mem_append.mp hj with hj | hj
        · have := hfresh j hj
          omega
        · simp at hj
          omega
    · simp only [runKeys, hstep] at hrun
      cases hrun
  | cons b bs ih =>
    intro m cur secs pend st' hmap hlt hbp hbv hfresh hrun
    obtain ⟨i, g⟩ := b
    rcases m with _ | m'
    · rw [List.map_cons] at hmap
      simp [List.range'] at hmap
    · rw [List.map_cons,
        show List.range' (cur + 1) (m' + 1) = (cur + 1) :: List.range' (cur + 1 + 1) m' from by
          simp [List.range']] at hmap
      injection hmap with hi hbs
      subst hi
      have hi10 : cur + 1 < 10 := by omega
      have hd : ∀ ns, detectSection (boundaryKeyName (cur + 1)) ns = cur + 1 :=
        detectSection_some (sectionMatch_boundaryKeyName (cur + 1) hi10)
      have hne : cur ≠ cur + 1 := by omega
      have hnos := boundaryKeyName_ne_nOS hi10
      have hnv := hbv (cur + 1, g) (by simp)
      simp only [List.map_cons, List.flatten_cons, blockKeys, List.cons_append,
        List.append_assoc] at hrun
      rcases stepKey_boundary secs pend hd hne hnv hnos with ⟨v, hgv, hstep⟩ | ⟨e, hstep⟩
      · simp only [runKeys, hstep] at hrun
        rw [runKeys_append] at hrun
        cases hg1 : runKeys api g (cur + 1, cur + 1, odInsert secs cur pend,
            [(boundaryKeyName (cur + 1), v)]) with
        | error e2 =>
          rw [hg1] at hrun
          cases hrun
        | ok stMid =>
          rw [hg1] at hrun
          obtain ⟨pendMid, hstMid⟩ :=
            runKeys_plain (fun k hk => hbp (cur + 1, g) (by simp) k hk) (cur + 1)
              (odInsert secs cur pend) [(boundaryKeyName (cur + 1), v)] stMid hg1
          subst hstMid
          have hnm : cur ∉ secs.map Prod.fst := not_mem_of_all_lt hfresh
          have hfresh' : ∀ j ∈ (odInsert secs cur pend).map Prod.fst, j < cur + 1 := by
            rw [odInsert_map_fst_of_not_mem pend hnm]
            intro j hj
            rcases List.mem_append.mp hj with hj | hj
            · have := hfresh j hj
              omega
            · simp at hj
              omega
          obtain ⟨secsF, pend8, hst, hmapF, hbound⟩ :=
            ih m' (cur + 1) (odInsert secs cur pend) pendMid st' hbs (by omega)
              (fun b hb => hbp b (by simp [hb]))
              (fun b hb => hbv b (by simp [hb])) hfresh' hrun
          refine ⟨secsF, pend8, hst, ?_, hbound⟩
          rw [hmapF, odInsert_map_fst_of_not_mem pend hnm, List.append_assoc,
            show List.range' cur (m' + 1 + 1) = cur :: List.range' (cur + 1) (m' + 1) from by
              simp [List.range'],
            List.singleton_append]
      · simp only [runKeys, hstep] at hrun
        cases hrun

/-- C3: a message that physically encodes sections 0..N-1 (section 0's keys,
then each section announced by its length key, all carrying values) and the
section-8 terminator key `7777` yields exactly N+1 entries in `sections()`,
keyed consecutively from 0 with no gaps, plus the terminator section 8. -/
theorem sections_full_message_entries (api : GribApi) (N : Nat) (g0 : List String)
    (blocks : List (Nat × List String)) (g8 : List String) (secs : SectionsMap)
    (hN1 : 1 ≤ N) (hN8 : N ≤ 8)
    (hkeys : api.keys = msgKeys g0 blocks g8)
    (hblocks : blocks.map Prod.fst = List.range' 1 (N - 1))
    (hg0 : ∀ k ∈ g0, plainKey k)
    (hgs : ∀ b ∈ blocks, ∀ k ∈ b.2, plainKey k)
    (hg8 : ∀ k ∈ g8, plainKey k)
    (hbv : ∀ b ∈ blocks, isNoValue (getKeyValue api (boundaryKeyName b.1)) = false)
    (h77 : isNoValue (getKeyValue api "7777") = false)
    (hrun : getMessageSections api = .ok secs) :
    secs.map Prod.fst = List.range N ++ [8] := by
  obtain ⟨cur, ns, secsR, pend, hAll, hsecs⟩ := getMessageSections_ok_elim api secs hrun
  rw [hkeys] at hAll
  unfold msgKeys at hAll
  rw [List.append_assoc, runKeys_append] at hAll
  cases hg0run : runKeys api g0 (0, 0, [], []) with
  | error e =>
    rw [hg0run] at hAll
    cases hAll
  | ok stMid =>
    rw [hg0run] at hAll
    obtain ⟨p0, hmid⟩ := runKeys_plain hg0 0 [] [] stMid hg0run
    subst hmid
    have hblocksN : blocks.map Prod.fst = List.range' (0 + 1) (N - 1) := by simpa using hblocks
    obtain ⟨secsF, pend8, hst, hmapF, hbound⟩ :=
      runKeys_blocks g8 hg8 h77 blocks (N - 1) 0 [] p0 (cur, ns, secsR, pend) hblocksN
        (by omega) hgs hbv (by simp) hAll
    simp only [Prod.mk.injEq] at hst
    obtain ⟨hcur, hns, hsR, hpd⟩ := hst
    rw [hsecs, hcur, hsR, hpd,
      odInsert_map_fst_of_not_mem pend8 (not_mem_of_all_lt hbound), hmapF]
    have hN : N - 1 + 1 = N := by omega
    rw [hN]
    simp [List.range_eq_range']

/-- C3 witness: a message with two data sections (0 and 1) and the
terminator yields exactly the three entries 0, 1, 8. -/
theorem sections_full_message_entries_witness :
    ([(0, [("a", GValue.int 1)]),
      (1, [("section1Length", GValue.int 1), ("b", GValue.int 1)]),
      (8, [("7777", GValue.int 1)])] : SectionsMap).map Prod.fst = List.range 2 ++ [8] :=
  sections_full_message_entries fourKeyApi 2 ["a"] [(1, ["b"])] []
    [(0, [("a", GValue.int 1)]),
     (1, [("section1Length", GValue.int 1), ("b", GValue.int 1)]),
     (8, [("7777", GValue.int 1)])]
    (by decide) (by decide) rfl rfl (by decide) (by decide) (by decide) (by decide)
    (by decide) rfl

theorem isBoundaryKey_of_detect_ne {k : String} {ns : Nat} (h : detectSection k ns ≠ ns) :
    isBoundaryKey k = true := by
  unfold detectSection at h
  unfold isBoundaryKey
  cases hm : sectionMatch k with
  | some n => simp [hm]
  | none =>
    rw [hm] at h
    by_cases h7 : k = "7777"
    · simp [hm, h7]
    · simp [h7] at h

theorem stepKey_nos_inv {api : GribApi} {k : String}
    (hb : isBoundaryKey k = true → isNoValue (getKeyValue api k) = false)
    {cur : Nat} {secs : SectionsMap} {pend : KVList} {st' : SState}
    (hstep : stepKey api (cur, cur, secs, pend) k = .ok st')
    (hsecs : ∀ s kvs, (s, kvs) ∈ secs → ∀ v, ("numberOfSection", v) ∈ kvs → v = GValue.int s)
    (hpend : ∀ v, ("numberOfSection", v) ∈ pend → v = GValue.int cur) :
    ∃ cur2 secs2 pend2, st' = (cur2, cur2, secs2, pend2)
      ∧ (∀ s kvs, (s, kvs) ∈ secs2 → ∀ v, ("numberOfSection", v) ∈ kvs → v = GValue.int s)
      ∧ (∀ v, ("numberOfSection", v) ∈ pend2 → v = GValue.int cur2) := by
  by_cases hn : k = "numberOfSection"
  · subst hn
    rw [show stepKey api (cur, cur, secs, pend) "numberOfSection" =
        .ok (cur, cur, secs, odInsert pend "numberOfSection" (GValue.int cur)) from by
      simp [stepKey, show detectSection "numberOfSection" cur = cur from rfl]] at hstep
    injection hstep with hst'
    refine ⟨cur, secs, odInsert pend "numberOfSection" (GValue.int cur), hst'.symm, hsecs, ?_⟩
    intro v hv
    rcases mem_odInsert hv with heq | hv2
    · rw [Prod.mk.injEq] at heq
      exact heq.2
    · exact hpend v hv2
  · cases hgv : getKeyValue api k with
    | ok v =>
      by_cases hcd : cur = detectSection k cur
      · rw [show stepKey api (cur, cur, secs, pend) k =
            .ok (cur, cur, secs, odInsert pend k v) from by
          simp [stepKey, ← hcd, hn, hgv]] at hstep
        injection hstep with hst'
        refine ⟨cur, secs, odInsert pend k v, hst'.symm, hsecs, ?_⟩
        intro w hw
        rcases mem_odInsert hw with heq | hw2
        · rw [Prod.mk.injEq] at heq
          exact absurd heq.1.symm hn
        · exact hpend w hw2
      · rw [show stepKey api (cur, cur, secs, pend) k =
            .ok (detectSection k cur, detectSection k cur, odInsert secs cur pend, [(k, v)]) from by
          simp only [stepKey]
          rw [if_neg hcd, if_neg hcd, if_neg hn, hgv]
          simp [odInsert]] at hstep
        injection hstep with hst'
        refine ⟨detectSection k cur, odInsert secs cur pend, [(k, v)], hst'.symm, ?_, ?_⟩
        · intro s kvs hmem w hw
          rcases mem_odInsert hmem with heq | hmem2
          · rw [Prod.mk.injEq] at heq
            obtain ⟨h1, h2⟩ := heq
            subst h1
            subst h2
            exact hpend w hw
          · exact hsecs s kvs hmem2 w hw
        · intro w hw
          simp at hw
          exact absurd hw.1.symm hn
    | error ge =>
      cases ge with
      | noValue s =>
        have hcd : cur = detectSection k cur := by
          by_contra hne
          have hbt := hb (isBoundaryKey_of_detect_ne (fun hc => hne hc.symm))
          rw [hgv] at hbt
          simp [isNoValue] at hbt
        rw [show stepKey api (cur, cur, secs, pend) k = .ok (cur, cur, secs, pend) from by
          simp [stepKey, ← hcd, hn, hgv]] at hstep
        injection hstep with hst'
        exact ⟨cur, secs, pend, hst'.symm, hsecs, hpend⟩
      | internal e =>
        rw [show stepKey api (cur, cur, secs, pend) k = .error e from by
          simp [stepKey, hn, hgv]] at hstep
        cases hstep

theorem runKeys_nos_inv {api : GribApi} :
    ∀ (ks : List String) (cur : Nat) (secs : SectionsMap) (pend : KVList) (st' : SState),
      (∀ k ∈ ks, isBoundaryKey k = true → isNoValue (getKeyValue api k) = false) →
      runKeys api ks (cur, cur, secs, pend) = .ok st' →
      (∀ s kvs, (s, kvs) ∈ secs → ∀ v, ("numberOfSection", v) ∈ kvs → v = GValue.int s) →
      (∀ v, ("numberOfSection", v) ∈ pend → v = GValue.int cur) →
      ∃ cur2 secs2 pend2, st' = (cur2, cur2, secs2, pend2)
        ∧ (∀ s kvs, (s, kvs) ∈ secs2 → ∀ v, ("numberOfSection", v) ∈ kvs → v = GValue.int s)
        ∧ (∀ v, ("numberOfSection", v) ∈ pend2 → v = GValue.int cur2) := by
  intro ks
  induction ks with
  | nil =>
    intro cur secs pend st' hb hrun hsecs hpend
    simp [runKeys] at hrun
    exact ⟨cur, secs, pend, hrun.symm, hsecs, hpend⟩
  | cons k t ih =>
    intro cur secs pend st' hb hrun hsecs hpend
    rw [runKeys] at hrun
    cases hstep : stepKey api (cur, cur, secs, pend) k with
    | error e =>
      rw [hstep] at hrun
      cases hrun
    | ok st1 =>
      rw [hstep] at hrun
      obtain ⟨cur2, secs2, pend2, hst1, hsecs2, hpend2⟩ :=
        stepKey_nos_inv (hb k (by simp)) hstep hsecs hpend
      subst hst1
      exact ih cur2 secs2 pend2 st' (fun k hk => hb k (by simp [hk])) hrun hsecs2 hpend2

/-- C4 counterexample: when the `section3Length` boundary key is advertised
with no value, the `continue` skips the `section = new_section` update, and
the following `numberOfSection` key is stored inside section 3's mapping
with the stale value 0, so `sections()[3]['numberOfSection']` is 0 and not
3. -/
theorem numberOfSection_stale_counterexample :
    getMessageSections staleSectionApi =
      .ok [(0, []), (3, [("numberOfSection", GValue.int 0)])]
  ∧ odLookup [("numberOfSection", GValue.int 0)] "numberOfSection" = some (GValue.int 0)
  ∧ GValue.int 0 ≠ GValue.int 3 :=
  ⟨rfl, rfl, by decide⟩

/-- C4 (amended): in every message whose section-boundary keys
(`section<N>Length` and `7777`) all carry values, a `numberOfSection` entry
of `sections()[k]` always has value `k`, regardless of what the decoder
would return for that key.  (When a boundary key decodes with no value the
`continue` skips the section update and a stale number can be recorded.) -/
theorem numberOfSection_matches_section (api : GribApi) (secs : SectionsMap)
    (hb : ∀ k ∈ api.keys, isBoundaryKey k = true → isNoValue (getKeyValue api k) = false)
    (hrun : getMessageSections api = .ok secs) :
    ∀ s kvs, (s, kvs) ∈ secs → ∀ v, ("numberOfSection", v) ∈ kvs → v = GValue.int s := by
  obtain ⟨cur, ns, secsR, pend, hAll, hsecs⟩ := getMessageSections_ok_elim api secs hrun
  obtain ⟨cur2, secs2, pend2, hst, hsecsI, hpendI⟩ :=
    runKeys_nos_inv api.keys 0 [] [] (cur, ns, secsR, pend) hb hAll
      (by intro s kvs h; cases h) (by intro v h; cases h)
  simp only [Prod.mk.injEq] at hst
  obtain ⟨h1, h2, h3, h4⟩ := hst
  intro s kvs hmem v hv
  rw [hsecs, h1, h3, h4] at hmem
  rcases mem_odInsert hmem with heq | hmem2
  · rw [Prod.mk.injEq] at heq
    obtain ⟨hs, hkvs⟩ := heq
    subst hs
    subst hkvs
    exact hpendI v hv
  · exact hsecsI s kvs hmem2 v hv

/-- C4 witness: a message whose decoder reports 9 for `numberOfSection`
still stores the containing section number (here 4) for it. -/
theorem numberOfSection_matches_section_witness :
    GValue.int 4 = GValue.int ((4 : Nat) : Int) :=
  numberOfSection_matches_section nosApi
    [(0, [("numberOfSection", GValue.int 0)]),
     (4, [("section4Length", GValue.int 9), ("numberOfSection", GValue.int 4)])]
    (by decide) rfl 4
    [("section4Length", GValue.int 9), ("numberOfSection", GValue.int 4)]
    (by decide) (GValue.int 4) (by decide)

theorem stepKey_absent_inv {api : GribApi} {kx k : String}
    (hnv : isNoValue (getKeyValue api kx) = true) (hnx : kx ≠ "numberOfSection")
    {cur newSec : Nat} {secs : SectionsMap} {pend : KVList} {st' : SState}
    (hstep : stepKey api (cur, newSec, secs, pend) k = .ok st')
    (hsecs : ∀ s kvs, (s, kvs) ∈ secs → ∀ v, (kx, v) ∉ kvs)
    (hpend : ∀ v, (kx, v) ∉ pend) :
    ∃ c2 n2 secs2 pend2, st' = (c2, n2, secs2, pend2)
      ∧ (∀ s kvs, (s, kvs) ∈ secs2 → ∀ v, (kx, v) ∉ kvs)
      ∧ (∀ v, (kx, v) ∉ pend2) := by
  have hF1 : ∀ s kvs,
      (s, kvs) ∈ (if cur = detectSection k newSec then secs else odInsert secs cur pend) →
      ∀ v, (kx, v) ∉ kvs := by
    by_cases hcd : cur = detectSection k newSec
    · rw [if_pos hcd]
      exact hsecs
    · rw [if_neg hcd]
      intro s kvs hmem v
      rcases mem_odInsert hmem with heq | hmem2
      · rw [Prod.mk.injEq] at heq
        rw [heq.2]
        exact hpend v
      · exact hsecs s kvs hmem2 v
  have hF2 : ∀ v, (kx, v) ∉ (if cur = detectSection k newSec then pend else ([] : KVList)) := by
    by_cases hcd : cur = detectSection k newSec
    · rw [if_pos hcd]
      exact hpend
    · rw [if_neg hcd]
      intro v hv
      cases hv
  by_cases hn : k = "numberOfSection"
  · rw [show stepKey api (cur, newSec, secs, pend) k =
        .ok (detectSection k newSec, detectSection k newSec,
          (if cur = detectSection k newSec then secs else odInsert secs cur pend),
          odInsert (if cur = detectSection k newSec then pend else []) k (GValue.int cur)) from by
      simp [stepKey, hn]] at hstep
    injection hstep with hst'
    refine ⟨_, _, _, _, hst'.symm, hF1, ?_⟩
    intro v hv
    rcases mem_odInsert hv with heq | hv2
    · rw [Prod.mk.injEq] at heq
      exact hnx (heq.1.trans hn)
    · exact hF2 v hv2
  · cases hgv : getKeyValue api k with
    | ok v =>
      have hkk : kx ≠ k := by
        intro hc
        rw [hc, hgv] at hnv
        simp [isNoValue] at hnv
      rw [show stepKey api (cur, newSec, secs, pend) k =
          .ok (detectSection k newSec, detectSection k newSec,
            (if cur = detectSection k newSec then secs else odInsert secs cur pend),
            odInsert (if cur = detectSection k newSec then pend else []) k v) from by
        simp [stepKey, hn, hgv]] at hstep
      injection hstep with hst'
      refine ⟨_, _, _, _, hst'.symm, hF1, ?_⟩
      intro w hw
      rcases mem_odInsert hw with heq | hw2
      · rw [Prod.mk.injEq] at heq
        exact hkk heq.1
      · exact hF2 w hw2
    | error ge =>
      cases ge with
      | noValue s =>
        rw [show stepKey api (cur, newSec, secs, pend) k =
            .ok (cur, detectSection k newSec,
              (if cur = detectSection k newSec then secs else odInsert secs cur pend),
              (if cur = detectSection k newSec then pend else [])) from by
          simp [stepKey, hn, hgv]] at hstep
        injection hstep with hst'
        exact ⟨_, _, _, _, hst'.symm, hF1, hF2⟩
      | internal e =>
        rw [show stepKey api (cur, newSec, secs, pend) k = .error e from by
          simp [stepKey, hn, hgv]] at hstep
        cases hstep

theorem runKeys_absent_inv {api : GribApi} {kx : String}
    (hnv : isNoValue (getKeyValue api kx) = true) (hnx : kx ≠ "numberOfSection") :
    ∀ (ks : List String) (cur newSec : Nat) (secs : SectionsMap) (pend : KVList) (st' : SState),
      runKeys api ks (cur, newSec, secs, pend) = .ok st' →
      (∀ s kvs, (s, kvs) ∈ secs → ∀ v, (kx, v) ∉ kvs) →
      (∀ v, (kx, v) ∉ pend) →
      ∃ c2 n2 secs2 pend2, st' = (c2, n2, secs2, pend2)
        ∧ (∀ s kvs, (s, kvs) ∈ secs2 → ∀ v, (kx, v) ∉ kvs)
        ∧ (∀ v, (kx, v) ∉ pend2) := by
  intro ks
  induction ks with
  | nil =>
    intro cur newSec secs pend st' hrun hsecs hpend
    simp [runKeys] at hrun
    exact ⟨cur, newSec, secs, pend, hrun.symm, hsecs, hpend⟩
  | cons k t ih =>
    intro cur newSec secs pend st' hrun hsecs hpend
    rw [runKeys] at hrun
    cases hstep : stepKey api (cur, newSec, secs, pend) k with
    | error e =>
      rw [hstep] at hrun
      cases hrun
    | ok st1 =>
      rw [hstep] at hrun
      obtain ⟨c2, n2, secs2, pend2, hst1, hsecs2, hpend2⟩ :=
        stepKey_absent_inv hnv hnx hstep hsecs hpend
      subst hst1
      exact ih c2 n2 secs2 pend2 st' hrun hsecs2 hpend2

theorem stepKey_error_elim {api : GribApi} {st : SState} {k e : String}
    (h : stepKey api st k = .error e) : getKeyValue api k = .error (.internal e) := by
  obtain ⟨cur, newSec, secs, pend⟩ := st
  by_cases hn : k = "numberOfSection"
  · simp [stepKey, hn] at h
  · cases hgv : getKeyValue api k with
    | ok v => simp [stepKey, hn, hgv] at h
    | error ge =>
      cases ge with
      | noValue s => simp [stepKey, hn, hgv] at h
      | internal e2 =>
        simp [stepKey, hn, hgv] at h
        subst h
        rfl

theorem runKeys_error_elim {api : GribApi} :
    ∀ (ks : List String) (st : SState) (e : String), runKeys api ks st = .error e →
      ∃ k, k ∈ ks ∧ getKeyValue api k = .error (.internal e) := by
  intro ks
  induction ks with
  | nil =>
    intro st e h
    simp [runKeys] at h
  | cons k t ih =>
    intro st e h
    rw [runKeys] at h
    cases hstep : stepKey api st k with
    | ok st1 =>
      rw [hstep] at h
      obtain ⟨k2, hk2, hgv⟩ := ih st1 e h
      exact ⟨k2, by simp [hk2], hgv⟩
    | error e2 =>
      rw [hstep] at h
      injection h with he
      subst he
      exact ⟨k, by simp, stepKey_error_elim hstep⟩

/-- C6: a key whose attempted value decode reports that it carries no value
(the keys the loop consults the decoder for are all iterated keys except
`numberOfSection`) is absent from every section mapping of a successful
`sections()` result, and the no-value condition is recovered internally:
the only failure `sections()` can surface is a fatal internal decoder
error for some key. -/
theorem no_value_keys_omitted (api : GribApi) :
    (∀ secs, getMessageSections api = .ok secs →
      ∀ k, k ∈ decodeAttempts api → isNoValue (getKeyValue api k) = true →
        ∀ s kvs, (s, kvs) ∈ secs → ∀ v, (k, v) ∉ kvs)
  ∧ (∀ e, getMessageSections api = .error e →
      ∃ k, k ∈ api.keys ∧ getKeyValue api k = .error (.internal e)) := by
  constructor
  · intro secs hrun k hka hnv s kvs hmem v
    have hnx : k ≠ "numberOfSection" := by
      simp [decodeAttempts, List.mem_filter] at hka
      exact hka.2
    obtain ⟨cur, ns, secsR, pend, hAll, hsecs⟩ := getMessageSections_ok_elim api secs hrun
    obtain ⟨c2, n2, secs2, pend2, hst, hsecsI, hpendI⟩ :=
      runKeys_absent_inv hnv hnx api.keys 0 0 [] [] (cur, ns, secsR, pend) hAll
        (by intro s kvs h; cases h) (by intro w h; cases h)
    simp only [Prod.mk.injEq] at hst
    obtain ⟨h1, h2, h3, h4⟩ := hst
    rw [hsecs, h1, h3, h4] at hmem
    rcases mem_odInsert hmem with heq | hmem2
    · rw [Prod.mk.injEq] at heq
      rw [heq.2]
      exact hpendI v
    · exact hsecsI s kvs hmem2 v
  · intro e herr
    exact runKeys_error_elim api.keys (0, 0, [], []) e (getMessageSections_error_elim api e herr)

/-- C6 witness: the valueless key `nv` is absent from section 0's mapping of
its message, which keeps only its neighbours `a` and `b`. -/
theorem no_value_keys_omitted_witness :
    ("nv", GValue.int 5) ∉ ([("a", GValue.int 1), ("b", GValue.int 1)] : KVList) :=
  (no_value_keys_omitted noValueKeyApi).1
    [(0, [("a", GValue.int 1), ("b", GValue.int 1)])] rfl "nv" (by decide) (by decide)
    0 [("a", GValue.int 1), ("b", GValue.int 1)] (by decide) (GValue.int 5)

theorem stepKey_zero_empty_inv {api : GribApi} {k : String} (hk : sectionMatch k ≠ some 0)
    {cur newSec : Nat} {secs : SectionsMap} {pend : KVList} {st' : SState}
    (hstep : stepKey api (cur, newSec, secs, pend) k = .ok st')
    (hz : odLookup secs 0 = some []) (hn0 : newSec ≠ 0) (hcp : cur = 0 → pend = []) :
    ∃ c2 n2 secs2 pend2, st' = (c2, n2, secs2, pend2)
      ∧ odLookup secs2 0 = some []
      ∧ n2 ≠ 0
      ∧ (c2 = 0 → pend2 = []) := by
  have hd0 : detectSection k newSec ≠ 0 := by
    unfold detectSection
    cases hm : sectionMatch k with
    | some n =>
      intro hc
      simp at hc
      rw [hc] at hm
      exact hk hm
    | none =>
      by_cases h7 : k = "7777"
      · simp [h7]
      · simpa [h7] using hn0
  have hF1 : odLookup (if cur = detectSection k newSec then secs else odInsert secs cur pend) 0 =
      some [] := by
    by_cases hcd : cur = detectSection k newSec
    · rw [if_pos hcd]
      exact hz
    · rw [if_neg hcd]
      by_cases hc0 : cur = 0
      · rw [hc0, hcp hc0, odLookup_odInsert_self]
      · rw [odLookup_odInsert_of_ne secs pend (fun hc => hc0 hc.symm)]
        exact hz
  by_cases hn : k = "numberOfSection"
  · rw [show stepKey api (cur, newSec, secs, pend) k =
        .ok (detectSection k newSec, detectSection k newSec,
          (if cur = detectSection k newSec then secs else odInsert secs cur pend),
          odInsert (if cur = detectSection k newSec then pend else []) k (GValue.int cur)) from by
      simp [stepKey, hn]] at hstep
    injection hstep with hst'
    exact ⟨_, _, _, _, hst'.symm, hF1, hd0, fun hc => absurd hc hd0⟩
  · cases hgv : getKeyValue api k with
    | ok v =>
      rw [show stepKey api (cur, newSec, secs, pend) k =
          .ok (detectSection k newSec, detectSection k newSec,
            (if cur = detectSection k newSec then secs else odInsert secs cur pend),
            odInsert (if cur = detectSection k newSec then pend else []) k v) from by
        simp [stepKey, hn, hgv]] at hstep
      injection hstep with hst'
      exact ⟨_, _, _, _, hst'.symm, hF1, hd0, fun hc => absurd hc hd0⟩
    | error ge =>
      cases ge with
      | noValue s =>
        rw [show stepKey api (cur, newSec, secs, pend) k =
            .ok (cur, detectSection k newSec,
              (if cur = detectSection k newSec then secs else odInsert secs cur pend),
              (if cur = detectSection k newSec then pend else [])) from by
          simp [stepKey, hn, hgv]] at hstep
        injection hstep with hst'
        refine ⟨_, _, _, _, hst'.symm, hF1, hd0, ?_⟩
        intro hc0
        have hcd : ¬cur = detectSection k newSec := by
          rw [hc0]
          exact fun hc => hd0 hc.symm
        rw [if_neg hcd]
      | internal e =>
        rw [show stepKey api (cur, newSec, secs, pend) k = .error e from by
          simp [stepKey, hn, hgv]] at hstep
        cases hstep

theorem runKeys_zero_empty_inv {api : GribApi} :
    ∀ (ks : List String) (cur newSec : Nat) (secs : SectionsMap) (pend : KVList) (st' : SState),
      (∀ k ∈ ks, sectionMatch k ≠ some 0) →
      runKeys api ks (cur, newSec, secs, pend) = .ok st' →
      odLookup secs 0 = some [] →
      newSec ≠ 0 →
      (cur = 0 → pend = []) →
      ∃ c2 n2 secs2 pend2, st' = (c2, n2, secs2, pend2)
        ∧ odLookup secs2 0 = some []
        ∧ n2 ≠ 0
        ∧ (c2 = 0 → pend2 = []) := by
  intro ks
  induction ks with
  | nil =>
    intro cur newSec secs pend st' hks hrun hz hn0 hcp
    simp [runKeys] at hrun
    exact ⟨cur, newSec, secs, pend, hrun.symm, hz, hn0, hcp⟩
  | cons k t ih =>
    intro cur newSec secs pend st' hks hrun hz hn0 hcp
    rw [runKeys] at hrun
    cases hstep : stepKey api (cur, newSec, secs, pend) k with
    | error e =>
      rw [hstep] at hrun
      cases hrun
    | ok st1 =>
      rw [hstep] at hrun
      obtain ⟨c2, n2, secs2, pend2, hst1, hz2, hn2, hcp2⟩ :=
        stepKey_zero_empty_inv (hks k (by simp)) hstep hz hn0 hcp
      subst hst1
      exact ih c2 n2 secs2 pend2 st' (fun k hk => hks k (by simp [hk])) hrun hz2 hn2 hcp2

/-- C10 counterexample: two adjacent boundary keys (`section1Length`
directly followed by `section2Length`, both carrying values) give the
earlier section 1 a mapping holding its own length key, not an empty
mapping, because the boundary key itself is stored into the section it
announces after the flush. -/
theorem adjacent_boundary_counterexample :
    getMessageSections adjacentBoundaryApi =
      .ok [(0, []), (1, [("section1Length", GValue.int 1)]),
           (2, [("section2Length", GValue.int 1)])]
  ∧ odLookup [(0, ([] : KVList)), (1, [("section1Length", GValue.int 1)]),
      (2, [("section2Length", GValue.int 1)])] 1 = some [("section1Length", GValue.int 1)]
  ∧ ([("section1Length", GValue.int 1)] : KVList) ≠ [] :=
  ⟨rfl, rfl, by decide⟩

/-- C10 (amended): the boundary flush stores the pending mapping even when
it holds no keys, so empty sections can appear: when the very first key is
a boundary key for a section `n ≠ 0` (and no later key re-enters section
0), `sections()` maps section 0 to an empty mapping.  For two adjacent
boundary keys, however, the earlier section's mapping holds that section's
own length key, so it is not empty. -/
theorem leading_boundary_empty_section_zero (api : GribApi) (k0 : String) (rest : List String)
    (n : Nat) (secs : SectionsMap)
    (hkeys : api.keys = k0 :: rest) (hk0 : sectionMatch k0 = some n) (hn : n ≠ 0)
    (hrest : ∀ k ∈ rest, sectionMatch k ≠ some 0)
    (hrun : getMessageSections api = .ok secs) :
    odLookup secs 0 = some [] := by
  obtain ⟨cur, ns, secsR, pend, hAll, hsecs⟩ := getMessageSections_ok_elim api secs hrun
  rw [hkeys, runKeys] at hAll
  have hd : detectSection k0 0 = n := detectSection_some hk0 0
  by_cases hnos : k0 = "numberOfSection"
  · rw [hnos, sectionMatch_numberOfSection] at hk0
    cases hk0
  · have hfinish : ∀ c2 n2 secs2 pend2,
        (cur, ns, secsR, pend) = ((c2, n2, secs2, pend2) : SState) →
        odLookup secs2 0 = some [] → (c2 = 0 → pend2 = []) →
        odLookup secs 0 = some [] := by
      intro c2 n2 secs2 pend2 hst hz2 hcp2
      simp only [Prod.mk.injEq] at hst
      obtain ⟨h1, h2, h3, h4⟩ := hst
      rw [hsecs, h1, h3, h4]
      by_cases hc0 : c2 = 0
      · rw [hc0, hcp2 hc0, odLookup_odInsert_self]
      · rw [odLookup_odInsert_of_ne secs2 pend2 (fun hc => hc0 hc.symm)]
        exact hz2
    cases hgv : getKeyValue api k0 with
    | ok v =>
      rw [show stepKey api (0, 0, [], []) k0 = .ok (n, n, [(0, [])], [(k0, v)]) from by
        simp [stepKey, hd, hnos, hgv, Ne.symm hn, odInsert]] at hAll
      obtain ⟨c2, n2, secs2, pend2, hst, hz2, hn2, hcp2⟩ :=
        runKeys_zero_empty_inv rest n n [(0, [])] [(k0, v)] (cur, ns, secsR, pend) hrest hAll
          rfl hn (fun hc => absurd hc hn)
      exact hfinish c2 n2 secs2 pend2 hst hz2 hcp2
    | error ge =>
      cases ge with
      | noValue s =>
        rw [show stepKey api (0, 0, [], []) k0 = .ok (0, n, [(0, [])], []) from by
          simp [stepKey, hd, hnos, hgv, Ne.symm hn, odInsert]] at hAll
        obtain ⟨c2, n2, secs2, pend2, hst, hz2, hn2, hcp2⟩ :=
          runKeys_zero_empty_inv rest 0 n [(0, [])] [] (cur, ns, secsR, pend) hrest hAll
            rfl hn (fun _ => rfl)
        exact hfinish c2 n2 secs2 pend2 hst hz2 hcp2
      | internal e =>
        rw [show stepKey api (0, 0, [], []) k0 = .error e from by
          simp [stepKey, hnos, hgv]] at hAll
        cases hAll

/-- C10 witness: a message whose first key announces section 2 stores an
empty mapping for section 0. -/
theorem leading_boundary_empty_section_zero_witness :
    odLookup [(0, ([] : KVList)),
      (2, [("section2Length", GValue.int 6), ("x", GValue.int 6)])] 0 = some [] :=
  leading_boundary_empty_section_zero leadingBoundaryApi "section2Length" ["x"] 2
    [(0, []), (2, [("section2Length", GValue.int 6), ("x", GValue.int 6)])]
    rfl rfl (by decide) (by decide) rfl
